import Mathlib

set_option maxRecDepth 8000

/-!
Verification development for the go-ipocalypse repository.

The file shallowly embeds, from the Go sources:
- the network topology detector (`detectNetworkConfig`, `getInterfaceIP`,
  `detectFallbackInterface`) together with the fragment of `net.ParseCIDR`
  and `IPNet.String` it uses;
- the image discovery and build phase of `main` (`getIpocalypseDirs`,
  flag splitting/validation, sequential builds);
- one container-launch attempt (`launchContainer`) against a stubbed Docker
  client, recording the calls it makes, and the error classifier
  `isNoIPError`;
- a small-step transition system for the concurrent worker pool in `main`
  (workers, the capacity-1 `errorChan`, context cancellation, the
  coordinator's `select` and `wg.Wait()`, and the trailing empty `select`).

Strings are processed as their character lists; helpers mirror the Go
standard-library functions the source calls (`strings.Fields`,
`strings.Split`, `strings.Contains`, `strings.TrimSpace`,
`strings.HasPrefix`, `filepath.Base`).
-/

/-- Whitespace test used by field splitting and trimming (ASCII part of Go's `unicode.IsSpace`). -/
def isWsp (c : Char) : Bool := c == ' ' || c == '\t' || c == '\n' || c == '\r'

/-- Accumulator worker for whitespace-separated splitting (Go `strings.Fields`). -/
def fieldsGo : List Char → List Char → List (List Char)
| [], acc => if acc.isEmpty then [] else [acc.reverse]
| c :: cs, acc =>
  if isWsp c then (if acc.isEmpty then fieldsGo cs [] else acc.reverse :: fieldsGo cs [])
  else fieldsGo cs (c :: acc)

/-- Split a character list into whitespace-separated fields (Go `strings.Fields`). -/
def fieldsL (l : List Char) : List (List Char) := fieldsGo l []

/-- Accumulator worker for separator splitting (Go `strings.Split` with a one-character separator). -/
def splitChGo : List Char → Char → List Char → List (List Char)
| [], _, acc => [acc.reverse]
| c :: cs, sep, acc =>
  if c == sep then acc.reverse :: splitChGo cs sep [] else splitChGo cs sep (c :: acc)

/-- Split on a separator character, keeping empty segments (Go `strings.Split`). -/
def splitCh (l : List Char) (sep : Char) : List (List Char) := splitChGo l sep []

/-- Prefix test on character lists (Go `strings.HasPrefix`, pattern first). -/
def hasPrefixL : List Char → List Char → Bool
| [], _ => true
| _ :: _, [] => false
| p :: ps, c :: cs => p == c && hasPrefixL ps cs

/-- Substring containment (Go `strings.Contains`, pattern first). -/
def containsSeq (pat : List Char) : List Char → Bool
| [] => pat.isEmpty
| c :: cs => hasPrefixL pat (c :: cs) || containsSeq pat cs

/-- Trim leading and trailing whitespace (Go `strings.TrimSpace`). -/
def trimL (l : List Char) : List Char := ((l.dropWhile isWsp).reverse.dropWhile isWsp).reverse

/-- Trim a string (Go `strings.TrimSpace`). -/
def strTrim (s : String) : String := String.mk (trimL s.data)

/-- Numeric value of a decimal digit character. -/
def digitVal (c : Char) : Nat := c.toNat - '0'.toNat

/-- Parse an unsigned decimal number; `none` if empty or a non-digit occurs. -/
def parseDecL (l : List Char) : Option Nat :=
  if l.isEmpty then none
  else if l.all Char.isDigit then some (l.foldl (fun a c => 10 * a + digitVal c) 0)
  else none

/-- Parse one dotted-quad octet as Go `net.ParseCIDR` does: decimal, at most 255, no leading zero. -/
def parseOctetL (l : List Char) : Option Nat :=
  match parseDecL l with
  | none => none
  | some v => if v ≤ 255 ∧ (l.length = 1 ∨ l.head? ≠ some '0') then some v else none

/-- Parse a dotted-quad IPv4 address into its four octets. -/
def parseIPv4L (l : List Char) : Option (Nat × Nat × Nat × Nat) :=
  match splitCh l '.' with
  | [a, b, c, d] =>
    match parseOctetL a, parseOctetL b, parseOctetL c, parseOctetL d with
    | some x, some y, some z, some w => some (x, y, z, w)
    | _, _, _, _ => none
  | _ => none

/-- Parse `a.b.c.d/n` into octets and prefix length (the IPv4 case of Go `net.ParseCIDR`). -/
def parseCIDRL (l : List Char) : Option ((Nat × Nat × Nat × Nat) × Nat) :=
  match splitCh l '/' with
  | [ipPart, maskPart] =>
    match parseIPv4L ipPart, parseDecL maskPart with
    | some o, some n => if n ≤ 32 then some (o, n) else none
    | _, _ => none
  | _ => none

/-- Number of mask bits that fall on octet `j` of a `/n` prefix. -/
def keepBits (n j : Nat) : Nat := min 8 (n - 8 * j)

/-- Mask one octet, keeping its top `keep` bits. -/
def maskOct (b keep : Nat) : Nat := b / 2 ^ (8 - keep) * 2 ^ (8 - keep)

/-- Apply a `/n` network mask to the four octets (Go `IP.Mask`). -/
def maskQuad (o : Nat × Nat × Nat × Nat) (n : Nat) : Nat × Nat × Nat × Nat :=
  (maskOct o.1 (keepBits n 0), maskOct o.2.1 (keepBits n 1),
   maskOct o.2.2.1 (keepBits n 2), maskOct o.2.2.2 (keepBits n 3))

/-- Decimal digits of a natural number. -/
def reprD (n : Nat) : List Char := (Nat.repr n).data

/-- Dotted-quad rendering of four octets. -/
def quadDotted (o : Nat × Nat × Nat × Nat) : List Char :=
  reprD o.1 ++ '.' :: (reprD o.2.1 ++ '.' :: (reprD o.2.2.1 ++ '.' :: reprD o.2.2.2))

/-- Network CIDR produced by Go `net.ParseCIDR` plus `IPNet.String`: masked address, slash, prefix length. -/
def cidrNetString (o : Nat × Nat × Nat × Nat) (n : Nat) : String :=
  String.mk (quadDotted (maskQuad o n) ++ '/' :: reprD n)

/-- Host-command outputs consumed by the detector: `ip route show default`,
`ip -o link show up`, and `ip -o -f inet addr show <iface>`; `none` models a
failing command. -/
structure HostEnv where
  routeShowDefault : Option String
  linkShowUp : Option String
  addrShow : String → Option String

/-- Lines of a command output (`bufio.Scanner` over the output). -/
def linesOf (s : String) : List (List Char) := splitCh s.data '\n'

/-- Embedding of Go `getInterfaceIP`: first field containing a slash in the
`ip -o -f inet addr show` output for the interface. -/
def getInterfaceIP (env : HostEnv) (iface : String) : Except String String :=
  match env.addrShow iface with
  | none => .error ("failed to run ip addr show for " ++ iface)
  | some out =>
    match (linesOf out).findSome? (fun line => (fieldsL line).find? (fun f => f.contains '/')) with
    | some f => .ok (String.mk f)
    | none => .error ("no IPv4 address found on interface " ++ iface)

/-- Cut an interface name at the first `@` (Go `strings.Index(iface, "@")` truncation). -/
def stripAtSuffix (l : List Char) : List Char := l.takeWhile (fun c => c != '@')

/-- Embedding of the scanning loop of Go `detectFallbackInterface`: first line
containing substring `en` or `eth` and having at least two colon-separated
fields yields its trimmed second field cut at `@`; otherwise the literal
`eth0`. -/
def fallbackFromLines : List (List Char) → List Char
| [] => "eth0".data
| l :: ls =>
  if containsSeq "en".data l || containsSeq "eth".data l then
    match splitCh l ':' with
    | _ :: second :: _ => stripAtSuffix (trimL second)
    | _ => fallbackFromLines ls
  else fallbackFromLines ls

/-- Embedding of Go `detectFallbackInterface`. -/
def detectFallbackInterface (env : HostEnv) : Except String String :=
  match env.linkShowUp with
  | none => .error "failed to run ip -o link show up"
  | some out => .ok (String.mk (fallbackFromLines (linesOf out)))

/-- Embedding of the `dev`/`via` scan in Go `detectNetworkConfig`: each `dev`
token with a successor overwrites the interface, each `via` token with a
successor overwrites the gateway. -/
def extractDevVia : List (List Char) → List Char → List Char → List Char × List Char
| [], i, g => (i, g)
| [_], i, g => (i, g)
| a :: b :: rest, i, g =>
  extractDevVia (b :: rest) (if a = "dev".data then b else i) (if a = "via".data then b else g)

/-- Interface/gateway part of Go `detectNetworkConfig`: parse the trimmed
default-route output, or fall back (leaving the gateway empty) when it is
empty. -/
def detectIfaceGateway (env : HostEnv) (routeLine : String) : Except String (String × String) :=
  if routeLine = "" then
    match detectFallbackInterface env with
    | .error e => .error ("no default route found and fallback detection failed: " ++ e)
    | .ok iface => .ok (iface, "")
  else
    let p := extractDevVia (fieldsL routeLine.data) [] []
    if p.1.isEmpty || p.2.isEmpty then .error ("could not parse default route: " ++ routeLine)
    else .ok (String.mk p.1, String.mk p.2)

/-- Embedding of Go `detectNetworkConfig`: returns interface, host address in
CIDR form, computed subnet, and gateway. -/
def detectNetworkConfig (env : HostEnv) : Except String (String × String × String × String) :=
  match env.routeShowDefault with
  | none => .error "failed to run ip route show default"
  | some out =>
    match detectIfaceGateway env (strTrim out) with
    | .error e => .error e
    | .ok (iface, gateway) =>
      match getInterfaceIP env iface with
      | .error e => .error e
      | .ok ipWithCIDR =>
        match parseCIDRL ipWithCIDR.data with
        | none => .error ("failed to parse CIDR " ++ ipWithCIDR)
        | some (o, n) => .ok (iface, ipWithCIDR, cidrNetString o n, gateway)

/-- Synthetic host with the default route `default via 10.0.0.1 dev eth0` and
first address `10.0.0.42/24` on `eth0`. -/
def envRoute : HostEnv where
  routeShowDefault := some "default via 10.0.0.1 dev eth0"
  linkShowUp := some ""
  addrShow := fun i =>
    if i = "eth0" then some "2: eth0    inet 10.0.0.42/24 brd 10.0.0.255 scope global eth0\n"
    else none

/-- Same host, but the route entry carries the extra tokens a real
`ip route show default` line has after `dev eth0`. -/
def envRouteLong : HostEnv where
  routeShowDefault := some "default via 10.0.0.1 dev eth0 proto dhcp src 10.0.0.42 metric 100"
  linkShowUp := some ""
  addrShow := fun i =>
    if i = "eth0" then some "2: eth0    inet 10.0.0.42/24 brd 10.0.0.255 scope global eth0\n"
    else none

/-- C3: given the default-route line `default via 10.0.0.1 dev eth0` and an
interface whose first IPv4 address is `10.0.0.42/24`, the detector returns
interface `eth0`, host address `10.0.0.42/24`, subnet `10.0.0.0/24` computed
by CIDR arithmetic, and gateway `10.0.0.1`; the extra route-entry tokens
(`proto`, `src`, `metric`) do not affect the result, interface and gateway
being read only from the `dev` and `via` tokens. -/
theorem detect_route_concrete :
    detectNetworkConfig envRoute = .ok ("eth0", "10.0.0.42/24", "10.0.0.0/24", "10.0.0.1") ∧
    detectNetworkConfig envRouteLong = .ok ("eth0", "10.0.0.42/24", "10.0.0.0/24", "10.0.0.1") := by
  exact ⟨rfl, rfl⟩

/-- Host with no default route whose only up interface is the loopback; the
`ip -o link show up` line for `lo` contains the substring `en` (inside
`qlen`). -/
def envLoopback : HostEnv where
  routeShowDefault := some ""
  linkShowUp := some "1: lo: <LOOPBACK,UP,LOWER_UP> mtu 65536 qdisc noqueue state UNKNOWN mode DEFAULT group default qlen 1000"
  addrShow := fun _ => none

/-- C6 counterexample: with no default route and only the loopback up, the
fallback detector returns `lo`, although `lo` matches none of the patterns
`en*`, `eth*`, `eno*`, `ens*` — the code matches the substrings `en`/`eth`
anywhere in the whole line (here inside `qlen 1000`), not the interface-name
patterns, so it neither skips `lo` nor falls back to the literal `eth0`. -/
theorem fallback_matches_loopback :
    detectFallbackInterface envLoopback = .ok "lo" ∧
    hasPrefixL "en".data "lo".data = false ∧
    hasPrefixL "eth".data "lo".data = false ∧
    "lo" ≠ "eth0" := by
  refine ⟨rfl, rfl, rfl, ?_⟩
  decide

/-- C6 amended: the fallback scans the up-interface listing line by line and
selects, from the first line that contains the substring `en` or `eth`
anywhere and splits into at least two colon-separated fields, the trimmed
second field truncated at `@`; the literal `eth0` is returned (only) when no
line contains either substring. In particular a single up `eth0` line yields
`eth0`, and an empty listing yields `eth0`. -/
theorem fallback_characterization :
    (∀ lines : List (List Char),
      (∀ l ∈ lines, containsSeq "en".data l = false ∧ containsSeq "eth".data l = false) →
      fallbackFromLines lines = "eth0".data) ∧
    fallbackFromLines ["2: eth0: <BROADCAST,MULTICAST,UP,LOWER_UP> mtu 1500".data] = "eth0".data := by
  constructor
  · intro lines h
    induction lines with
    | nil => rfl
    | cons l ls ih =>
      have hl := h l (List.mem_cons_self l ls)
      simp only [fallbackFromLines, hl.1, hl.2, Bool.or_self]
      exact ih fun x hx => h x (List.mem_cons_of_mem l hx)
  · rfl

/-- C6 amended witness: the characterization applied to the empty listing. -/
theorem fallback_characterization_empty :
    fallbackFromLines [] = "eth0".data :=
  fallback_characterization.1 [] (by intro l h; exact absurd h (List.not_mem_nil l))

/-- Splitting a list free of the separator yields one segment. -/
theorem splitChGo_of_not_mem (sep : Char) (x : List Char) :
    ∀ acc, sep ∉ x → splitChGo x sep acc = [acc.reverse ++ x] := by
  induction x with
  | nil => intro acc _; simp [splitChGo]
  | cons c cs ih =>
    intro acc h
    have hcs : sep ∉ cs := fun hm => h (List.mem_cons_of_mem c hm)
    have hc : (c == sep) = false :=
      beq_eq_false_iff_ne.mpr fun he => h (by rw [he]; exact List.mem_cons_self sep cs)
    simp only [splitChGo, hc, Bool.false_eq_true, if_false]
    rw [ih (c :: acc) hcs]
    simp

/-- Splitting at the first separator occurrence detaches the separator-free head. -/
theorem splitChGo_append (sep : Char) (y : List Char) (x : List Char) :
    ∀ acc, sep ∉ x → splitChGo (x ++ sep :: y) sep acc = (acc.reverse ++ x) :: splitCh y sep := by
  induction x with
  | nil => intro acc _; simp [splitChGo, splitCh]
  | cons c cs ih =>
    intro acc h
    have hcs : sep ∉ cs := fun hm => h (List.mem_cons_of_mem c hm)
    have hc : (c == sep) = false :=
      beq_eq_false_iff_ne.mpr fun he => h (by rw [he]; exact List.mem_cons_self sep cs)
    simp only [List.cons_append, splitChGo, hc, Bool.false_eq_true, if_false, List.append_eq]
    rw [ih (c :: acc) hcs]
    simp

/-- One-segment form of `splitCh` for separator-free input. -/
theorem splitCh_of_not_mem (sep : Char) (x : List Char) (h : sep ∉ x) :
    splitCh x sep = [x] := by
  unfold splitCh; rw [splitChGo_of_not_mem sep x [] h]; rfl

/-- Head-detaching form of `splitCh`. -/
theorem splitCh_append (sep : Char) (x y : List Char) (h : sep ∉ x) :
    splitCh (x ++ sep :: y) sep = x :: splitCh y sep := by
  unfold splitCh; rw [splitChGo_append sep y x [] h]; rfl

/-- Octet parsing inverts decimal printing for every byte value. -/
theorem parseOctetL_reprD : ∀ v : Nat, v < 256 → parseOctetL (reprD v) = some v := by decide

/-- Printed byte values contain neither a dot nor a slash. -/
theorem reprD_byte_no_sep : ∀ v : Nat, v < 256 → '.' ∉ reprD v ∧ '/' ∉ reprD v := by decide

/-- Decimal parsing inverts printing for every prefix length. -/
theorem parseDecL_reprD : ∀ n : Nat, n < 33 → parseDecL (reprD n) = some n := by decide

/-- Printed prefix lengths contain no slash. -/
theorem reprD_prefixLen_no_slash : ∀ n : Nat, n < 33 → '/' ∉ reprD n := by decide

/-- Successful octet parses are byte values. -/
theorem parseOctetL_le {l : List Char} {v : Nat} (h : parseOctetL l = some v) : v ≤ 255 := by
  unfold parseOctetL at h
  split at h
  · exact absurd h (by simp)
  · split at h
    · rename_i hcond
      injection h with h'
      exact h' ▸ hcond.1
    · exact absurd h (by simp)

/-- Successful IPv4 parses consist of byte values. -/
theorem parseIPv4L_le {l : List Char} {o : Nat × Nat × Nat × Nat} (h : parseIPv4L l = some o) :
    o.1 ≤ 255 ∧ o.2.1 ≤ 255 ∧ o.2.2.1 ≤ 255 ∧ o.2.2.2 ≤ 255 := by
  unfold parseIPv4L at h
  split at h
  · split at h
    · rename_i hx hy hz hw
      injection h with h'
      subst h'
      exact ⟨parseOctetL_le hx, parseOctetL_le hy, parseOctetL_le hz, parseOctetL_le hw⟩
    · exact absurd h (by simp)
  · exact absurd h (by simp)

/-- Successful CIDR parses have byte octets and a prefix length of at most 32. -/
theorem parseCIDRL_inv {l : List Char} {o : Nat × Nat × Nat × Nat} {n : Nat}
    (h : parseCIDRL l = some (o, n)) :
    o.1 ≤ 255 ∧ o.2.1 ≤ 255 ∧ o.2.2.1 ≤ 255 ∧ o.2.2.2 ≤ 255 ∧ n ≤ 32 := by
  unfold parseCIDRL at h
  split at h
  · split at h
    · rename_i hip hdec
      split at h
      · rename_i hn
        injection h with h'
        obtain ⟨h1, h2⟩ := Prod.mk.injEq .. ▸ h'
        subst h1; subst h2
        obtain ⟨b1, b2, b3, b4⟩ := parseIPv4L_le hip
        exact ⟨b1, b2, b3, b4, hn⟩
      · exact absurd h (by simp)
    · exact absurd h (by simp)
  · exact absurd h (by simp)

/-- Masking cannot increase an octet. -/
theorem maskOct_le (b k : Nat) : maskOct b k ≤ b := Nat.div_mul_le_self b _

/-- Shape of the dotted-quad rendering. -/
theorem quadDotted_mk (a b c d : Nat) :
    quadDotted (a, b, c, d) = reprD a ++ '.' :: (reprD b ++ '.' :: (reprD c ++ '.' :: reprD d)) := rfl

/-- IPv4 parsing inverts dotted-quad printing on byte values. -/
theorem parseIPv4L_quadDotted (a b c d : Nat)
    (h1 : a < 256) (h2 : b < 256) (h3 : c < 256) (h4 : d < 256) :
    parseIPv4L (quadDotted (a, b, c, d)) = some (a, b, c, d) := by
  have na := (reprD_byte_no_sep a h1).1
  have nb := (reprD_byte_no_sep b h2).1
  have nc := (reprD_byte_no_sep c h3).1
  have nd := (reprD_byte_no_sep d h4).1
  unfold parseIPv4L
  rw [quadDotted_mk, splitCh_append '.' _ _ na, splitCh_append '.' _ _ nb,
      splitCh_append '.' _ _ nc, splitCh_of_not_mem '.' _ nd]
  show (match parseOctetL (reprD a), parseOctetL (reprD b), parseOctetL (reprD c), parseOctetL (reprD d) with
       | some x, some y, some z, some w => some (x, y, z, w)
       | _, _, _, _ => none) = some (a, b, c, d)
  rw [parseOctetL_reprD a h1, parseOctetL_reprD b h2, parseOctetL_reprD c h3, parseOctetL_reprD d h4]

/-- The dotted-quad rendering of byte values contains no slash. -/
theorem quadDotted_no_slash (a b c d : Nat)
    (h1 : a < 256) (h2 : b < 256) (h3 : c < 256) (h4 : d < 256) :
    '/' ∉ quadDotted (a, b, c, d) := by
  rw [quadDotted_mk]
  intro hm
  rcases List.mem_append.1 hm with h | h
  · exact (reprD_byte_no_sep a h1).2 h
  · rcases List.mem_cons.1 h with h | h
    · exact absurd h (by decide)
    · rcases List.mem_append.1 h with h | h
      · exact (reprD_byte_no_sep b h2).2 h
      · rcases List.mem_cons.1 h with h | h
        · exact absurd h (by decide)
        · rcases List.mem_append.1 h with h | h
          · exact (reprD_byte_no_sep c h3).2 h
          · rcases List.mem_cons.1 h with h | h
            · exact absurd h (by decide)
            · exact (reprD_byte_no_sep d h4).2 h

/-- CIDR parsing inverts the network rendering on byte octets and valid prefix lengths. -/
theorem parseCIDRL_roundtrip (a b c d n : Nat)
    (h1 : a < 256) (h2 : b < 256) (h3 : c < 256) (h4 : d < 256) (hn : n ≤ 32) :
    parseCIDRL (quadDotted (a, b, c, d) ++ '/' :: reprD n) = some ((a, b, c, d), n) := by
  have hn' : n < 33 := Nat.lt_succ_of_le hn
  unfold parseCIDRL
  rw [splitCh_append '/' _ _ (quadDotted_no_slash a b c d h1 h2 h3 h4),
      splitCh_of_not_mem '/' _ (reprD_prefixLen_no_slash n hn')]
  show (match parseIPv4L (quadDotted (a, b, c, d)), parseDecL (reprD n) with
       | some o, some m => if m ≤ 32 then some (o, m) else none
       | _, _ => none) = some ((a, b, c, d), n)
  rw [parseIPv4L_quadDotted a b c d h1 h2 h3 h4, parseDecL_reprD n hn']
  simp [hn]

/-- Strict-CIDR membership check used to state the topology invariant: the
host CIDR's address, masked with the subnet's prefix length, must equal the
subnet's network address. -/
def cidrContains (subnetS hostS : String) : Bool :=
  match parseCIDRL subnetS.data, parseCIDRL hostS.data with
  | some (netq, p), some (hq, _) => decide (maskQuad hq p = netq)
  | _, _ => false

/-- The subnet rendered from a parsed host CIDR contains that host address. -/
theorem cidrContains_cidrNetString {ip : String} {o : Nat × Nat × Nat × Nat} {n : Nat}
    (h : parseCIDRL ip.data = some (o, n)) :
    cidrContains (cidrNetString o n) ip = true := by
  obtain ⟨b1, b2, b3, b4, hn⟩ := parseCIDRL_inv h
  obtain ⟨a, b, c, d⟩ := o
  have hr : parseCIDRL (cidrNetString ((a, b, c, d) : Nat × Nat × Nat × Nat) n).data =
      some (maskQuad (a, b, c, d) n, n) := by
    show parseCIDRL (quadDotted (maskQuad (a, b, c, d) n) ++ '/' :: reprD n) = _
    exact parseCIDRL_roundtrip _ _ _ _ n
      (Nat.lt_of_le_of_lt (maskOct_le a _) (Nat.lt_succ_of_le b1))
      (Nat.lt_of_le_of_lt (maskOct_le b _) (Nat.lt_succ_of_le b2))
      (Nat.lt_of_le_of_lt (maskOct_le c _) (Nat.lt_succ_of_le b3))
      (Nat.lt_of_le_of_lt (maskOct_le d _) (Nat.lt_succ_of_le b4))
      hn
  unfold cidrContains
  rw [hr, h]
  simp

/-- Any string whose characters contain a slash is non-empty. -/
theorem contains_slash_ne_empty {s : String} (h : s.data.contains '/' = true) : s ≠ "" := by
  intro he
  subst he
  exact absurd h (by decide)

/-- The rendered network CIDR is never the empty string. -/
theorem cidrNetString_ne_empty (o : Nat × Nat × Nat × Nat) (n : Nat) :
    cidrNetString o n ≠ "" := by
  intro he
  have hd : quadDotted (maskQuad o n) ++ '/' :: reprD n = [] := congrArg String.data he
  simp at hd

/-- A successful `getInterfaceIP` returns one of the whitespace-separated
fields of the command output, and that field contains a slash. -/
theorem getInterfaceIP_ok {env : HostEnv} {i s : String}
    (h : getInterfaceIP env i = .ok s) : s.data.contains '/' = true := by
  unfold getInterfaceIP at h
  split at h
  · exact absurd h (by simp)
  · split at h
    · rename_i f hfind
      injection h with h'
      subst h'
      obtain ⟨line, _, hfs⟩ := List.exists_of_findSome?_eq_some hfind
      exact @List.find?_some (List Char) (fun x => x.contains '/') f (fieldsL line) hfs
    · exact absurd h (by simp)

/-- On a non-empty route line, a successful `detectIfaceGateway` returns
non-empty interface and gateway strings. -/
theorem detectIfaceGateway_route {env : HostEnv} {rl i g : String}
    (hne : rl ≠ "") (h : detectIfaceGateway env rl = .ok (i, g)) : i ≠ "" ∧ g ≠ "" := by
  simp only [detectIfaceGateway, if_neg hne] at h
  split at h
  · exact absurd h (by simp)
  · rename_i hcond
    injection h with h'
    rw [Bool.or_eq_true, not_or] at hcond
    obtain ⟨h1, h2⟩ := Prod.mk.injEq .. ▸ h'
    subst h1; subst h2
    constructor
    · intro he
      exact hcond.1 (by
        have := congrArg String.data he
        simp only [List.isEmpty_iff]
        exact this)
    · intro he
      exact hcond.2 (by
        have := congrArg String.data he
        simp only [List.isEmpty_iff]
        exact this)

/-- Host with a successfully queried but empty default-route table, an empty
up-link listing, and address `10.0.0.42/24` on `eth0`. -/
def envNoRoute : HostEnv where
  routeShowDefault := some ""
  linkShowUp := some ""
  addrShow := fun i =>
    if i = "eth0" then some "2: eth0    inet 10.0.0.42/24 brd 10.0.0.255 scope global eth0"
    else none

/-- C4 counterexample: on the no-default-route fallback path the detector
returns successfully with an empty gateway string (`detectNetworkConfig`
never assigns the gateway on that path), so not all four fields of a
successful detection are non-empty. -/
theorem detect_fallback_empty_gateway :
    detectNetworkConfig envNoRoute = .ok ("eth0", "10.0.0.42/24", "10.0.0.0/24", "") := rfl

/-- C4 amended: whenever detection succeeds, the host address and the subnet
are non-empty and the host address lies within the subnet by strict CIDR
arithmetic; the interface and the gateway are additionally non-empty whenever
the default-route query returned a non-empty (trimmed) route line, while on
the fallback path the gateway is left empty. -/
theorem detect_success_invariant :
    ∀ (env : HostEnv) (i ip sub gw : String),
      detectNetworkConfig env = .ok (i, ip, sub, gw) →
      ip ≠ "" ∧ sub ≠ "" ∧ cidrContains sub ip = true ∧
      (∀ out, env.routeShowDefault = some out → strTrim out ≠ "" → i ≠ "" ∧ gw ≠ "") := by
  intro env i ip sub gw h
  unfold detectNetworkConfig at h
  split at h
  · exact absurd h (by simp)
  · rename_i out hout
    split at h
    · exact absurd h (by simp)
    · rename_i pr hig
      split at h
      · exact absurd h (by simp)
      · rename_i ipc hip
        split at h
        · exact absurd h (by simp)
        · rename_i o n hpc
          injection h with h'
          obtain ⟨hi, h'⟩ := Prod.mk.injEq .. ▸ h'
          obtain ⟨hip', h'⟩ := Prod.mk.injEq .. ▸ h'
          obtain ⟨hsub, hgw⟩ := Prod.mk.injEq .. ▸ h'
          subst hi; subst hip'; subst hsub; subst hgw
          have hsl := getInterfaceIP_ok hip
          refine ⟨contains_slash_ne_empty hsl, cidrNetString_ne_empty o n,
            cidrContains_cidrNetString hpc, ?_⟩
          intro out' hout' hne
          rw [hout] at hout'
          injection hout' with hoo
          subst hoo
          exact detectIfaceGateway_route hne hig

/-- Host with the default route `default via 192.168.1.1 dev eno1` and first
address `192.168.1.7/16` on `eno1`. -/
def envRouteEno : HostEnv where
  routeShowDefault := some "default via 192.168.1.1 dev eno1"
  linkShowUp := some ""
  addrShow := fun i =>
    if i = "eno1" then some "3: eno1    inet 192.168.1.7/16 brd 192.168.255.255 scope global eno1"
    else none

/-- C4 amended witness: the invariant instantiated on a concrete
default-route host, every hypothesis discharged by evaluation. -/
theorem detect_success_invariant_witness :
    ("192.168.1.7/16" : String) ≠ "" ∧ ("192.168.0.0/16" : String) ≠ "" ∧
    cidrContains "192.168.0.0/16" "192.168.1.7/16" = true ∧
    ("eno1" : String) ≠ "" ∧ ("192.168.1.1" : String) ≠ "" := by
  have h := detect_success_invariant envRouteEno "eno1" "192.168.1.7/16" "192.168.0.0/16"
    "192.168.1.1" rfl
  have h4 := h.2.2.2 "default via 192.168.1.1 dev eno1" rfl (by decide)
  exact ⟨h.1, h.2.1, h.2.2.1, h4.1, h4.2⟩

/-- Prefix test on strings (Go `strings.HasPrefix`, subject first). -/
def goHasPrefix (s pre : String) : Bool := hasPrefixL pre.data s.data

/-- Embedding of Go `filepath.Base` for Unix paths: empty path gives `.`,
trailing slashes are dropped, an all-slash path gives `/`, otherwise the
component after the last slash. -/
def filepathBase (p : String) : String :=
  if p = "" then "."
  else
    let noTrail := (p.data.reverse.dropWhile (fun c => c == '/')).reverse
    if noTrail.isEmpty then "/"
    else String.mk ((noTrail.reverse.takeWhile (fun c => c != '/')).reverse)

/-- Inputs of the pre-spawn phase of `main`: the `-dockerfiles` flag, the
`-workers` flag, the working-directory entries read by `os.ReadDir` as
(name, isDir) pairs, the outcomes of the network-setup script and of Docker
client creation, and per-directory image build success. -/
structure SetupInput where
  dockerfilesFlag : String
  workersFlag : Int
  entries : List (String × Bool)
  networkSetupOk : Bool
  dockerClientOk : Bool
  buildOk : String → Bool

/-- Embedding of Go `getIpocalypseDirs`: directories named `ipocalypse*`
prefixed with `./`; an error when none is found. -/
def getIpocalypseDirs (entries : List (String × Bool)) : Except Nat (List String) :=
  let dirs := (entries.filter (fun e => e.2 && goHasPrefix e.1 "ipocalypse")).map
    (fun e => "./" ++ e.1)
  if dirs.isEmpty then .error 1 else .ok dirs

/-- Go `strings.Split` on commas, as `main` applies it to the flag value. -/
def goSplitComma (s : String) : List String := (splitCh s.data ',').map String.mk

/-- Embedding of the dockerfile-list computation in `main`: auto-discovery
when the flag is empty, otherwise the comma-split flag where every entry's
base name must start with `ipocalypse` (`os.Exit(1)` otherwise). -/
def computeDockerfileList (inp : SetupInput) : Except Nat (List String) :=
  if inp.dockerfilesFlag = "" then getIpocalypseDirs inp.entries
  else
    let l := goSplitComma inp.dockerfilesFlag
    if l.all (fun d => goHasPrefix (filepathBase d) "ipocalypse") then .ok l else .error 1

/-- Embedding of the sequential build loop in `main`: each directory yields
the image name `Base(dir):latest`, and the first failing build exits with
code 1. -/
def buildAll (ok : String → Bool) : List String → Except Nat (List String)
| [] => .ok []
| d :: ds =>
  if ok d then
    match buildAll ok ds with
    | .ok ns => .ok ((filepathBase d ++ ":latest") :: ns)
    | .error c => .error c
  else .error 1

/-- Embedding of everything `main` does before spawning workers: compute the
dockerfile list, run the network setup script, create the Docker client,
build all images; on success the built image names and the unchecked
`-workers` value reach the spawn loop. -/
def preSpawn (inp : SetupInput) : Except Nat (List String × Int) :=
  match computeDockerfileList inp with
  | .error c => .error c
  | .ok dockerfileList =>
    if inp.networkSetupOk = false then .error 1
    else if inp.dockerClientOk = false then .error 1
    else
      match buildAll inp.buildOk dockerfileList with
      | .error c => .error c
      | .ok imageNames => .ok (imageNames, inp.workersFlag)

/-- Random image selection in the worker loop,
`imageNames[rand.Intn(len(imageNames))]`, with `rand.Intn` modelled as the
remainder of an arbitrary draw. -/
def pickImage (images : List String) (r : Nat) : Option String :=
  images[r % images.length]?

/-- The comma split never produces the empty list. -/
theorem splitChGo_ne_nil (x : List Char) (sep : Char) : ∀ acc, splitChGo x sep acc ≠ [] := by
  induction x with
  | nil => intro acc; simp [splitChGo]
  | cons c cs ih =>
    intro acc
    by_cases hc : (c == sep) = true
    · simp [splitChGo, hc]
    · simp only [splitChGo, hc, Bool.false_eq_true, if_false]
      exact ih (c :: acc)

/-- Lists of built image names have one entry per dockerfile directory. -/
theorem buildAll_ok_length {ok : String → Bool} :
    ∀ {l : List String} {ns : List String}, buildAll ok l = .ok ns → ns.length = l.length := by
  intro l
  induction l with
  | nil => intro ns h; injection h with h'; subst h'; rfl
  | cons d ds ih =>
    intro ns h
    unfold buildAll at h
    split at h
    · split at h
      · rename_i ms hms
        injection h with h'
        subst h'
        simp [ih hms]
      · exact absurd h (by simp)
    · exact absurd h (by simp)

/-- A dockerfile list that survives validation is non-empty. -/
theorem computeDockerfileList_ok_ne_nil {inp : SetupInput} {l : List String}
    (h : computeDockerfileList inp = .ok l) : l ≠ [] := by
  simp only [computeDockerfileList] at h
  split at h
  · simp only [getIpocalypseDirs] at h
    split at h
    · exact absurd h (by simp)
    · rename_i hne
      injection h with h'
      subst h'
      intro hnil
      rw [hnil] at hne
      exact hne rfl
  · split at h
    · injection h with h'
      subst h'
      intro hnil
      have := splitChGo_ne_nil inp.dockerfilesFlag.data ',' []
      unfold goSplitComma splitCh at hnil
      exact this (List.map_eq_nil_iff.mp hnil)
    · exact absurd h (by simp)

/-- List indices below the length hit an element. -/
theorem getElem?_isSome_of_lt {α : Type} {l : List α} {i : Nat} (h : i < l.length) :
    l[i]?.isSome = true := by
  rw [List.getElem?_eq_getElem h]
  rfl

/-- C10: every run that reaches the worker-spawn loop carries a non-empty
image-name list (auto-discovery errors out when nothing matches, an explicit
flag list always splits into at least one entry and every entry must pass the
name check, and the build loop preserves the count or exits), so the random
selection `imageNames[rand.Intn(len(imageNames))]` always indexes in range
and never panics. -/
theorem spawn_images_nonempty :
    ∀ (inp : SetupInput) (names : List String) (w : Int),
      preSpawn inp = .ok (names, w) →
      names ≠ [] ∧ ∀ r : Nat, (pickImage names r).isSome = true := by
  intro inp names w h
  unfold preSpawn at h
  split at h
  · exact absurd h (by simp)
  · rename_i dockerfileList hlist
    split at h
    · exact absurd h (by simp)
    · split at h
      · exact absurd h (by simp)
      · split at h
        · exact absurd h (by simp)
        · rename_i ns hbuild
          injection h with h'
          obtain ⟨hn, -⟩ := Prod.mk.injEq .. ▸ h'
          subst hn
          have hlen : ns.length = dockerfileList.length := buildAll_ok_length hbuild
          have hne : ns ≠ [] := by
            intro hnil
            apply computeDockerfileList_ok_ne_nil hlist
            have hz : dockerfileList.length = 0 := by rw [← hlen, hnil]; rfl
            exact List.length_eq_zero.mp hz
          refine ⟨hne, fun r => ?_⟩
          have hpos : 0 < ns.length := by
            cases ns with
            | nil => exact absurd rfl hne
            | cons a as => exact Nat.succ_pos _
          exact getElem?_isSome_of_lt (Nat.mod_lt r hpos)

/-- Concrete pre-spawn input: one explicitly flagged dockerfile directory,
every external step succeeding. -/
def inpOneDir : SetupInput where
  dockerfilesFlag := "ipocalypse_basic_image"
  workersFlag := 5
  entries := []
  networkSetupOk := true
  dockerClientOk := true
  buildOk := fun _ => true

/-- C10 witness: the spawn-phase safety applied to a concrete run. -/
theorem spawn_images_nonempty_witness :
    (["ipocalypse_basic_image:latest"] : List String) ≠ [] ∧
    (pickImage ["ipocalypse_basic_image:latest"] 7).isSome = true := by
  have h := spawn_images_nonempty inpOneDir ["ipocalypse_basic_image:latest"] 5 rfl
  exact ⟨h.1, h.2 7⟩

/-- Error-message fragment produced by `launchContainer` when no address is
assigned, and matched by `isNoIPError`. -/
def noIPMsg : String := "container did not receive an IP address"

/-- Embedding of Go `isNoIPError` on an error message: substring match for
`did not receive an IP address`. -/
def isNoIPErrorStr (msg : String) : Bool :=
  containsSeq "did not receive an IP address".data msg.data

/-- Embedding of Go `isNoIPError` on an optional error (`nil` gives false). -/
def isNoIPError (e : Option String) : Bool :=
  match e with
  | none => false
  | some m => isNoIPErrorStr m

/-- Result of one `launchContainer` call as the worker observes it. -/
inductive AttemptOutcome where
| launched : AttemptOutcome
| failed : String → AttemptOutcome

/-- Position of one worker goroutine inside its loop in `main`; `k` counts
completed attempts, sleeping states record the `time.Sleep` durations in
seconds (1 after a launch, 2 before a retry). -/
inductive WState where
| loopTop : Nat → WState
| attempting : Nat → WState
| sleeping : Nat → Nat → WState
| sending : String → WState
| cancelling : WState
| wdone : WState
deriving DecidableEq

/-- Terminating cause of the pool run, distinguishing which branch of the
coordinator's `select` fired. -/
inductive Cause where
| exhausted : String → Cause
| ctxCancelled : Cause
deriving DecidableEq

/-- Position of the coordinating `main` goroutine: at its `select`, inside
`wg.Wait()`, or at the trailing empty `select {}` that never proceeds. -/
inductive CoordState where
| atSelect : CoordState
| wgWait : Cause → CoordState
| blockedForever : Cause → CoordState
deriving DecidableEq

/-- Global state of the pool: the worker goroutines, the capacity-1 buffered
`errorChan`, the shared cancellable context, and the coordinator. -/
structure PState where
  workers : List WState
  buf : Option String
  cancelled : Bool
  coord : CoordState
deriving DecidableEq

/-- Environment of a pool run: the outcome each worker's `k`-th
`launchContainer` attempt would produce. -/
structure PoolConfig where
  outcome : Nat → Nat → AttemptOutcome

/-- Replace worker `i`'s state. -/
def setW (s : PState) (i : Nat) (w : WState) : PState :=
  { s with workers := s.workers.set i w }

/-- Successor states contributed by worker `i`: the `select` with `default`
at the loop top (a ready `ctx.Done()` must be taken), attempt completion
classified by `isNoIPError`, the send on the capacity-1 `errorChan` (blocked
while the buffer is full), the `cancel()` call, and `return`. -/
def workerSucc (cfg : PoolConfig) (s : PState) (i : Nat) : List PState :=
  match s.workers[i]? with
  | none => []
  | some (.loopTop k) =>
    if s.cancelled then [setW s i .wdone] else [setW s i (.attempting k)]
  | some (.attempting k) =>
    match cfg.outcome i k with
    | .launched => [setW s i (.sleeping 1 (k + 1))]
    | .failed m =>
      if isNoIPErrorStr m then [setW s i (.sending m)]
      else [setW s i (.sleeping 2 (k + 1))]
  | some (.sleeping _ k) => [setW s i (.loopTop k)]
  | some (.sending m) =>
    match s.buf with
    | none => [{ setW s i .cancelling with buf := some m }]
    | some _ => []
  | some .cancelling => [{ setW s i .wdone with cancelled := true }]
  | some .wdone => []

/-- All workers have returned (`wg.Wait()` can proceed). -/
def allDone (ws : List WState) : Bool := ws.all (fun w => w == WState.wdone)

/-- Successor states contributed by the coordinator: its `select` receives
the buffered error (printing it and calling `cancel()`) or takes the
`ctx.Done()` branch, `wg.Wait()` completes once all workers are done, and the
empty `select {}` never proceeds. -/
def coordSucc (s : PState) : List PState :=
  match s.coord with
  | .atSelect =>
    (match s.buf with
     | some e => [{ s with buf := none, cancelled := true, coord := .wgWait (.exhausted e) }]
     | none => []) ++
    (if s.cancelled then [{ s with coord := .wgWait .ctxCancelled }] else [])
  | .wgWait c => if allDone s.workers then [{ s with coord := .blockedForever c }] else []
  | .blockedForever _ => []

/-- Successors contributed by workers `0..m-1`. -/
def succsUpTo (cfg : PoolConfig) (s : PState) : Nat → List PState
| 0 => []
| m + 1 => succsUpTo cfg s m ++ workerSucc cfg s m

/-- All successors of a pool state. -/
def succs (cfg : PoolConfig) (s : PState) : List PState :=
  succsUpTo cfg s s.workers.length ++ coordSucc s

/-- One interleaving step of the pool. -/
def poolStep (cfg : PoolConfig) (s s' : PState) : Prop := s' ∈ succs cfg s

/-- Initial pool state after `main` spawns `n` workers. -/
def initState (n : Nat) : PState :=
  { workers := List.replicate n (.loopTop 0), buf := none, cancelled := false, coord := .atSelect }

/-- States a pool run with `n` workers can reach. -/
def poolReach (cfg : PoolConfig) (n : Nat) (s : PState) : Prop :=
  Relation.ReflTransGen (poolStep cfg) (initState n) s

instance (cfg : PoolConfig) (s s' : PState) : Decidable (poolStep cfg s s') :=
  inferInstanceAs (Decidable (s' ∈ succs cfg s))

/-- Worker successor membership determines a worker index. -/
theorem mem_succsUpTo {cfg : PoolConfig} {s : PState} :
    ∀ {m : Nat} {s' : PState}, s' ∈ succsUpTo cfg s m → ∃ j, j < m ∧ s' ∈ workerSucc cfg s j := by
  intro m
  induction m with
  | zero => intro s' h; exact absurd h (List.not_mem_nil s')
  | succ m ih =>
    intro s' h
    rcases List.mem_append.1 h with h | h
    · obtain ⟨j, hj, hm⟩ := ih h
      exact ⟨j, Nat.lt_succ_of_lt hj, hm⟩
    · exact ⟨m, Nat.lt_succ_self m, h⟩

/-- Inversion of one pool step into the eleven transitions of the model:
worker loop-top exit on cancellation, attempt start, attempt completion
(launch, exhaustion-class failure, retryable failure), sleep expiry, error
send, `cancel()`, and the coordinator's receive, `ctx.Done()` branch, and
`wg.Wait()` completion. -/
theorem succs_cases {cfg : PoolConfig} {s s' : PState} (h : s' ∈ succs cfg s) :
    (∃ j k, s.workers[j]? = some (.loopTop k) ∧ s.cancelled = true ∧ s' = setW s j .wdone) ∨
    (∃ j k, s.workers[j]? = some (.loopTop k) ∧ s.cancelled = false ∧
      s' = setW s j (.attempting k)) ∨
    (∃ j k, s.workers[j]? = some (.attempting k) ∧ cfg.outcome j k = .launched ∧
      s' = setW s j (.sleeping 1 (k + 1))) ∨
    (∃ j k m, s.workers[j]? = some (.attempting k) ∧ cfg.outcome j k = .failed m ∧
      isNoIPErrorStr m = true ∧ s' = setW s j (.sending m)) ∨
    (∃ j k m, s.workers[j]? = some (.attempting k) ∧ cfg.outcome j k = .failed m ∧
      isNoIPErrorStr m = false ∧ s' = setW s j (.sleeping 2 (k + 1))) ∨
    (∃ j d k, s.workers[j]? = some (.sleeping d k) ∧ s' = setW s j (.loopTop k)) ∨
    (∃ j m, s.workers[j]? = some (.sending m) ∧ s.buf = none ∧
      s' = { setW s j .cancelling with buf := some m }) ∨
    (∃ j, s.workers[j]? = some .cancelling ∧ s' = { setW s j .wdone with cancelled := true }) ∨
    (∃ e, s.coord = .atSelect ∧ s.buf = some e ∧
      s' = { s with buf := none, cancelled := true, coord := .wgWait (.exhausted e) }) ∨
    (s.coord = .atSelect ∧ s.cancelled = true ∧ s' = { s with coord := .wgWait .ctxCancelled }) ∨
    (∃ c, s.coord = .wgWait c ∧ allDone s.workers = true ∧
      s' = { s with coord := .blockedForever c }) := by
  rcases List.mem_append.1 h with hw | hc
  · obtain ⟨j, _, hm⟩ := mem_succsUpTo hw
    unfold workerSucc at hm
    split at hm
    · exact absurd hm (List.not_mem_nil s')
    · rename_i k hj
      split at hm
      · rename_i hcan
        exact Or.inl ⟨j, k, hj, hcan, List.mem_singleton.mp hm⟩
      · rename_i hcan
        exact Or.inr (Or.inl ⟨j, k, hj, Bool.not_eq_true _ ▸ hcan, List.mem_singleton.mp hm⟩)
    · rename_i k hj
      split at hm
      · rename_i hout
        exact Or.inr (Or.inr (Or.inl ⟨j, k, hj, hout, List.mem_singleton.mp hm⟩))
      · rename_i m hout
        split at hm
        · rename_i hni
          exact Or.inr (Or.inr (Or.inr (Or.inl
            ⟨j, k, m, hj, hout, hni, List.mem_singleton.mp hm⟩)))
        · rename_i hni
          exact Or.inr (Or.inr (Or.inr (Or.inr (Or.inl
            ⟨j, k, m, hj, hout, Bool.not_eq_true _ ▸ hni, List.mem_singleton.mp hm⟩))))
    · rename_i d k hj
      exact Or.inr (Or.inr (Or.inr (Or.inr (Or.inr (Or.inl
        ⟨j, d, k, hj, List.mem_singleton.mp hm⟩)))))
    · rename_i m hj
      split at hm
      · rename_i hbuf
        exact Or.inr (Or.inr (Or.inr (Or.inr (Or.inr (Or.inr (Or.inl
          ⟨j, m, hj, hbuf, List.mem_singleton.mp hm⟩))))))
      · exact absurd hm (List.not_mem_nil s')
    · rename_i hj
      exact Or.inr (Or.inr (Or.inr (Or.inr (Or.inr (Or.inr (Or.inr (Or.inl
        ⟨j, hj, List.mem_singleton.mp hm⟩)))))))
    · exact absurd hm (List.not_mem_nil s')
  · unfold coordSucc at hc
    split at hc
    · rename_i hcoord
      rcases List.mem_append.1 hc with hb | hd
      · split at hb
        · rename_i e hbuf
          exact Or.inr (Or.inr (Or.inr (Or.inr (Or.inr (Or.inr (Or.inr (Or.inr (Or.inl
            ⟨e, hcoord, hbuf, List.mem_singleton.mp hb⟩))))))))
        · exact absurd hb (List.not_mem_nil s')
      · split at hd
        · rename_i hcan
          exact Or.inr (Or.inr (Or.inr (Or.inr (Or.inr (Or.inr (Or.inr (Or.inr (Or.inr (Or.inl
            ⟨hcoord, hcan, List.mem_singleton.mp hd⟩)))))))))
        · exact absurd hd (List.not_mem_nil s')
    · rename_i c hcoord
      split at hc
      · rename_i hall
        exact Or.inr (Or.inr (Or.inr (Or.inr (Or.inr (Or.inr (Or.inr (Or.inr (Or.inr (Or.inr
          ⟨c, hcoord, hall, List.mem_singleton.mp hc⟩)))))))))
      · exact absurd hc (List.not_mem_nil s')
    · exact absurd hc (List.not_mem_nil s')

/-- Worker states that are neither terminating nor signalling: inside the
live loop (at its top, attempting, or pacing between attempts). -/
def isActive : WState → Bool
| .loopTop _ => true
| .attempting _ => true
| .sleeping _ _ => true
| .sending _ => false
| .cancelling => false
| .wdone => false

/-- Reading back an index set within bounds, or an untouched index. -/
theorem setW_getElem?_cases {s : PState} {j : Nat} {w : WState} {i : Nat} {v : WState}
    (h : (setW s j w).workers[i]? = some v) :
    (i = j ∧ v = w) ∨ (i ≠ j ∧ s.workers[i]? = some v) := by
  by_cases hij : i = j
  · subst hij
    by_cases hlt : i < s.workers.length
    · rw [show (setW s i w).workers = s.workers.set i w from rfl,
        List.getElem?_set_self hlt] at h
      injection h with h'
      exact Or.inl ⟨rfl, h'.symm⟩
    · exfalso
      have hnone : (setW s i w).workers[i]? = none := by
        apply List.getElem?_eq_none
        have : (setW s i w).workers.length = s.workers.length := List.length_set ..
        rw [this]
        exact Nat.le_of_not_lt hlt
      rw [hnone] at h
      exact Option.noConfusion h
  · refine Or.inr ⟨hij, ?_⟩
    rw [show (setW s j w).workers = s.workers.set j w from rfl,
      List.getElem?_set_ne (fun he => hij he.symm)] at h
    exact h

/-- Indices untouched by `setW` read back unchanged. -/
theorem setW_getElem?_ne {s : PState} {j : Nat} {w : WState} {i : Nat} (hij : i ≠ j) :
    (setW s j w).workers[i]? = s.workers[i]? := by
  rw [show (setW s j w).workers = s.workers.set j w from rfl]
  exact List.getElem?_set_ne (fun he => hij he.symm)

/-- C9: the worker loop's `select` checks the cancellation signal before every
new attempt — an attempt-start step can only fire from a state in which
cancellation has not been observed (`ctx.Done()` not ready), and a worker that
has returned after observing cancellation stays returned, so no worker starts
a new provisioning attempt after observing that cancellation has fired. -/
theorem cancel_checked_before_attempt :
    ∀ (cfg : PoolConfig) (s s' : PState) (i k : Nat),
      poolStep cfg s s' →
      ((s.workers[i]? = some (.loopTop k) ∧ s'.workers[i]? = some (.attempting k)) →
        s.cancelled = false) ∧
      (s.workers[i]? = some .wdone → s'.workers[i]? = some .wdone) := by
  intro cfg s s' i k hstep
  rcases succs_cases hstep with
    ⟨j, k', hj, hc, rfl⟩ | ⟨j, k', hj, hc, rfl⟩ | ⟨j, k', hj, ho, rfl⟩ |
    ⟨j, k', m, hj, ho, hni, rfl⟩ | ⟨j, k', m, hj, ho, hni, rfl⟩ | ⟨j, d, k', hj, rfl⟩ |
    ⟨j, m, hj, hb, rfl⟩ | ⟨j, hj, rfl⟩ | ⟨e, hco, hb, rfl⟩ | ⟨hco, hc, rfl⟩ |
    ⟨c, hco, hall, rfl⟩
  case inl =>
    constructor
    · rintro ⟨h1, h2⟩
      rcases setW_getElem?_cases h2 with ⟨-, hv⟩ | ⟨hne, hv⟩
      · exact absurd hv (by simp)
      · rw [h1] at hv; injection hv with hv; exact absurd hv (by simp)
    · intro hdone
      by_cases hij : i = j
      · subst hij; rw [hdone] at hj; injection hj with hj; exact absurd hj (by simp)
      · rw [setW_getElem?_ne hij]; exact hdone
  case inr.inl =>
    constructor
    · intro _; exact hc
    · intro hdone
      by_cases hij : i = j
      · subst hij; rw [hdone] at hj; injection hj with hj; exact absurd hj (by simp)
      · rw [setW_getElem?_ne hij]; exact hdone
  case inr.inr.inl =>
    constructor
    · rintro ⟨h1, h2⟩
      rcases setW_getElem?_cases h2 with ⟨hij, hv⟩ | ⟨hne, hv⟩
      · subst hij; rw [h1] at hj; injection hj with hj; exact absurd hj (by simp)
      · rw [h1] at hv; injection hv with hv; exact absurd hv (by simp)
    · intro hdone
      by_cases hij : i = j
      · subst hij; rw [hdone] at hj; injection hj with hj; exact absurd hj (by simp)
      · rw [setW_getElem?_ne hij]; exact hdone
  case inr.inr.inr.inl =>
    constructor
    · rintro ⟨h1, h2⟩
      rcases setW_getElem?_cases h2 with ⟨hij, hv⟩ | ⟨hne, hv⟩
      · subst hij; rw [h1] at hj; injection hj with hj; exact absurd hj (by simp)
      · rw [h1] at hv; injection hv with hv; exact absurd hv (by simp)
    · intro hdone
      by_cases hij : i = j
      · subst hij; rw [hdone] at hj; injection hj with hj; exact absurd hj (by simp)
      · rw [setW_getElem?_ne hij]; exact hdone
  case inr.inr.inr.inr.inl =>
    constructor
    · rintro ⟨h1, h2⟩
      rcases setW_getElem?_cases h2 with ⟨hij, hv⟩ | ⟨hne, hv⟩
      · subst hij; rw [h1] at hj; injection hj with hj; exact absurd hj (by simp)
      · rw [h1] at hv; injection hv with hv; exact absurd hv (by simp)
    · intro hdone
      by_cases hij : i = j
      · subst hij; rw [hdone] at hj; injection hj with hj; exact absurd hj (by simp)
      · rw [setW_getElem?_ne hij]; exact hdone
  case inr.inr.inr.inr.inr.inl =>
    constructor
    · rintro ⟨h1, h2⟩
      rcases setW_getElem?_cases h2 with ⟨hij, hv⟩ | ⟨hne, hv⟩
      · subst hij; rw [h1] at hj; injection hj with hj; exact absurd hj (by simp)
      · rw [h1] at hv; injection hv with hv; exact absurd hv (by simp)
    · intro hdone
      by_cases hij : i = j
      · subst hij; rw [hdone] at hj; injection hj with hj; exact absurd hj (by simp)
      · rw [setW_getElem?_ne hij]; exact hdone
  case inr.inr.inr.inr.inr.inr.inl =>
    constructor
    · rintro ⟨h1, h2⟩
      have h2' : (setW s j WState.cancelling).workers[i]? = some (.attempting k) := h2
      rcases setW_getElem?_cases h2' with ⟨hij, hv⟩ | ⟨hne, hv⟩
      · exact absurd hv (by simp)
      · rw [h1] at hv; injection hv with hv; exact absurd hv (by simp)
    · intro hdone
      show (setW s j WState.cancelling).workers[i]? = some .wdone
      by_cases hij : i = j
      · subst hij; rw [hdone] at hj; injection hj with hj; exact absurd hj (by simp)
      · rw [setW_getElem?_ne hij]; exact hdone
  case inr.inr.inr.inr.inr.inr.inr.inl =>
    constructor
    · rintro ⟨h1, h2⟩
      have h2' : (setW s j WState.wdone).workers[i]? = some (.attempting k) := h2
      rcases setW_getElem?_cases h2' with ⟨hij, hv⟩ | ⟨hne, hv⟩
      · exact absurd hv (by simp)
      · rw [h1] at hv; injection hv with hv; exact absurd hv (by simp)
    · intro hdone
      show (setW s j WState.wdone).workers[i]? = some .wdone
      by_cases hij : i = j
      · by_cases hlt : j < s.workers.length
        · subst hij
          rw [show (setW s i WState.wdone).workers = s.workers.set i WState.wdone from rfl,
            List.getElem?_set_self hlt]
        · subst hij
          rw [hdone] at hj; injection hj with hj; exact absurd hj (by simp)
      · rw [setW_getElem?_ne hij]; exact hdone
  case inr.inr.inr.inr.inr.inr.inr.inr.inl =>
    constructor
    · rintro ⟨h1, h2⟩
      have h2' : s.workers[i]? = some (WState.attempting k) := h2
      rw [h1] at h2'
      injection h2' with h2'
      exact absurd h2' (by simp)
    · intro hdone
      exact hdone
  case inr.inr.inr.inr.inr.inr.inr.inr.inr.inl =>
    constructor
    · rintro ⟨h1, h2⟩
      have h2' : s.workers[i]? = some (WState.attempting k) := h2
      rw [h1] at h2'
      injection h2' with h2'
      exact absurd h2' (by simp)
    · intro hdone
      exact hdone
  case inr.inr.inr.inr.inr.inr.inr.inr.inr.inr =>
    constructor
    · rintro ⟨h1, h2⟩
      have h2' : s.workers[i]? = some (WState.attempting k) := h2
      rw [h1] at h2'
      injection h2' with h2'
      exact absurd h2' (by simp)
    · intro hdone
      exact hdone

/-- Pool environment in which every attempt launches successfully. -/
def cfgAllLaunch : PoolConfig where
  outcome := fun _ _ => .launched

/-- C9 witness: one concrete attempt-start step from the one-worker initial
state, whose source state the theorem shows to be uncancelled. -/
theorem cancel_checked_before_attempt_witness : (initState 1).cancelled = false := by
  have h := cancel_checked_before_attempt cfgAllLaunch (initState 1)
    (setW (initState 1) 0 (.attempting 0)) 0 0 (by decide)
  exact h.1 ⟨by decide, by decide⟩

/-- Quiescence invariant of runs whose allocator never produces an
exhaustion-class message: nothing is ever cancelled, buffered, or past the
coordinator's `select`, and every worker stays in its live loop. -/
theorem retry_quiescent {cfg : PoolConfig} {n : Nat}
    (hretry : ∀ i k m, cfg.outcome i k = .failed m → isNoIPErrorStr m = false) :
    ∀ {s : PState}, poolReach cfg n s →
      s.cancelled = false ∧ s.buf = none ∧ s.coord = .atSelect ∧
      ∀ w ∈ s.workers, isActive w = true := by
  intro s h
  induction h with
  | refl =>
    refine ⟨rfl, rfl, rfl, fun w hw => ?_⟩
    rw [List.eq_of_mem_replicate hw]
    rfl
  | tail hab hbc ih =>
    obtain ⟨hcan, hbuf, hcoord, hact⟩ := ih
    rcases succs_cases hbc with
      ⟨j, k, hj, hc, rfl⟩ | ⟨j, k, hj, hc, rfl⟩ | ⟨j, k, hj, ho, rfl⟩ |
      ⟨j, k, m, hj, ho, hni, rfl⟩ | ⟨j, k, m, hj, ho, hni, rfl⟩ | ⟨j, d, k, hj, rfl⟩ |
      ⟨j, m, hj, hb, rfl⟩ | ⟨j, hj, rfl⟩ | ⟨e, hco, hb, rfl⟩ | ⟨hco, hc, rfl⟩ |
      ⟨c, hco, hall, rfl⟩
    next =>
      rw [hcan] at hc
      exact Bool.noConfusion hc
    next =>
      refine ⟨hcan, hbuf, hcoord, fun w hw => ?_⟩
      rcases List.mem_or_eq_of_mem_set hw with hw | rfl
      · exact hact w hw
      · rfl
    next =>
      refine ⟨hcan, hbuf, hcoord, fun w hw => ?_⟩
      rcases List.mem_or_eq_of_mem_set hw with hw | rfl
      · exact hact w hw
      · rfl
    next =>
      rw [hretry j k m ho] at hni
      exact Bool.noConfusion hni
    next =>
      refine ⟨hcan, hbuf, hcoord, fun w hw => ?_⟩
      rcases List.mem_or_eq_of_mem_set hw with hw | rfl
      · exact hact w hw
      · rfl
    next =>
      refine ⟨hcan, hbuf, hcoord, fun w hw => ?_⟩
      rcases List.mem_or_eq_of_mem_set hw with hw | rfl
      · exact hact w hw
      · rfl
    next =>
      have := hact _ (List.getElem?_mem hj)
      exact absurd this (by simp [isActive])
    next =>
      have := hact _ (List.getElem?_mem hj)
      exact absurd this (by simp [isActive])
    next =>
      rw [hbuf] at hb
      exact Option.noConfusion hb
    next =>
      rw [hcan] at hc
      exact Bool.noConfusion hc
    next =>
      rw [hcoord] at hco
      exact CoordState.noConfusion hco

/-- C8: when every failure the allocator produces is non-exhaustion-class
(`isNoIPError` false), a worker completing such a failed attempt moves to the
2-second retry backoff and then loops, and no reachable state of the run has
cancelled the context, buffered an error, or moved the coordinator past its
`select` — retryable failures never terminate the pool and never yield an
exhaustion result, regardless of how many occur. -/
theorem retryable_never_terminates :
    ∀ (cfg : PoolConfig) (n : Nat) (s : PState),
      (∀ i k m, cfg.outcome i k = .failed m → isNoIPErrorStr m = false) →
      poolReach cfg n s →
      (s.cancelled = false ∧ s.buf = none ∧ s.coord = .atSelect ∧
        ∀ w ∈ s.workers, isActive w = true) ∧
      (∀ i k m, s.workers[i]? = some (.attempting k) → cfg.outcome i k = .failed m →
        workerSucc cfg s i = [setW s i (.sleeping 2 (k + 1))]) := by
  intro cfg n s hretry hreach
  refine ⟨retry_quiescent hretry hreach, fun i k m hj ho => ?_⟩
  have hni := hretry i k m ho
  simp only [workerSucc, hj, ho, hni, Bool.false_eq_true, if_false]

/-- Pool environment in which every attempt fails with a transient,
non-exhaustion error message. -/
def cfgAllRefused : PoolConfig where
  outcome := fun _ _ => .failed "connection refused"

/-- C8 witness: the theorem applied to a two-worker run under the
always-retryable allocator, at the state in which worker 0 has begun its
first attempt. -/
theorem retryable_never_terminates_witness :
    (setW (initState 2) 0 (.attempting 0)).cancelled = false ∧
    (setW (initState 2) 0 (.attempting 0)).coord = CoordState.atSelect ∧
    workerSucc cfgAllRefused (setW (initState 2) 0 (.attempting 0)) 0 =
      [setW (setW (initState 2) 0 (.attempting 0)) 0 (.sleeping 2 1)] := by
  have h := retryable_never_terminates cfgAllRefused 2 (setW (initState 2) 0 (.attempting 0))
    (fun i k m hm => by injection hm with hm; rw [← hm]; decide)
    (Relation.ReflTransGen.single (by decide))
  exact ⟨h.1.1, h.1.2.2.1, h.2 0 0 "connection refused" (by decide) rfl⟩

/-- A fully-done worker list contributes no worker transitions. -/
theorem workerSucc_of_allDone {cfg : PoolConfig} {s : PState}
    (hall : allDone s.workers = true) (i : Nat) : workerSucc cfg s i = [] := by
  unfold workerSucc
  cases hj : s.workers[i]? with
  | none => rfl
  | some w =>
    have hw := List.getElem?_mem hj
    have hbeq := List.all_eq_true.mp hall _ hw
    have hw' : w = WState.wdone := eq_of_beq hbeq
    subst hw'
    rfl

/-- Worker successor lists vanish when each worker's do. -/
theorem succsUpTo_nil {cfg : PoolConfig} {s : PState}
    (h : ∀ i, workerSucc cfg s i = []) : ∀ m, succsUpTo cfg s m = [] := by
  intro m
  induction m with
  | zero => rfl
  | succ m ih => simp [succsUpTo, ih, h m]

/-- Runs reach the blocked coordinator only with every worker done. -/
theorem blocked_allDone {cfg : PoolConfig} {n : Nat} :
    ∀ {s : PState}, poolReach cfg n s →
      ∀ c, s.coord = .blockedForever c → allDone s.workers = true := by
  intro s h
  induction h with
  | refl =>
    intro c hc
    exact CoordState.noConfusion hc
  | tail hab hbc ih =>
    intro c hc
    rcases succs_cases hbc with
      ⟨j, k, hj, hcx, rfl⟩ | ⟨j, k, hj, hcx, rfl⟩ | ⟨j, k, hj, ho, rfl⟩ |
      ⟨j, k, m, hj, ho, hni, rfl⟩ | ⟨j, k, m, hj, ho, hni, rfl⟩ | ⟨j, d, k, hj, rfl⟩ |
      ⟨j, m, hj, hb, rfl⟩ | ⟨j, hj, rfl⟩ | ⟨e, hco, hb, rfl⟩ | ⟨hco, hcx, rfl⟩ |
      ⟨c', hco, hall, rfl⟩
    next =>
      have hall := ih c hc
      have hbeq := List.all_eq_true.mp hall _ (List.getElem?_mem hj)
      exact absurd (eq_of_beq hbeq) (by simp)
    next =>
      have hall := ih c hc
      have hbeq := List.all_eq_true.mp hall _ (List.getElem?_mem hj)
      exact absurd (eq_of_beq hbeq) (by simp)
    next =>
      have hall := ih c hc
      have hbeq := List.all_eq_true.mp hall _ (List.getElem?_mem hj)
      exact absurd (eq_of_beq hbeq) (by simp)
    next =>
      have hall := ih c hc
      have hbeq := List.all_eq_true.mp hall _ (List.getElem?_mem hj)
      exact absurd (eq_of_beq hbeq) (by simp)
    next =>
      have hall := ih c hc
      have hbeq := List.all_eq_true.mp hall _ (List.getElem?_mem hj)
      exact absurd (eq_of_beq hbeq) (by simp)
    next =>
      have hall := ih c hc
      have hbeq := List.all_eq_true.mp hall _ (List.getElem?_mem hj)
      exact absurd (eq_of_beq hbeq) (by simp)
    next =>
      have hall := ih c hc
      have hbeq := List.all_eq_true.mp hall _ (List.getElem?_mem hj)
      exact absurd (eq_of_beq hbeq) (by simp)
    next =>
      have hall := ih c hc
      have hbeq := List.all_eq_true.mp hall _ (List.getElem?_mem hj)
      exact absurd (eq_of_beq hbeq) (by simp)
    next => exact CoordState.noConfusion hc
    next => exact CoordState.noConfusion hc
    next =>
      exact hall

/-- C2 amended: whenever the coordinator's wait completes (the run reaches
the final blocked state), every worker has exited, the recorded terminating
cause is exactly one of exhaustion or external cancellation (never both,
never neither), and the state has no further transitions: the process does
not exit — mirroring the trailing `select {}` of `main`, it stays blocked
forever instead of completing with exit code 0. -/
theorem pool_drain_blocked :
    ∀ (cfg : PoolConfig) (n : Nat) (s : PState) (c : Cause),
      poolReach cfg n s → s.coord = .blockedForever c →
      (∀ w ∈ s.workers, w = .wdone) ∧
      ((∃ m, c = .exhausted m) ∨ c = .ctxCancelled) ∧
      ¬((∃ m, c = .exhausted m) ∧ c = .ctxCancelled) ∧
      succs cfg s = [] := by
  intro cfg n s c hreach hc
  have hall := blocked_allDone hreach c hc
  refine ⟨fun w hw => eq_of_beq (List.all_eq_true.mp hall _ hw), ?_, ?_, ?_⟩
  · cases c with
    | exhausted m => exact Or.inl ⟨m, rfl⟩
    | ctxCancelled => exact Or.inr rfl
  · rintro ⟨⟨m, hm⟩, hcc⟩
    rw [hm] at hcc
    exact Cause.noConfusion hcc
  · have h1 : succsUpTo cfg s s.workers.length = [] :=
      succsUpTo_nil (fun i => workerSucc_of_allDone hall i) s.workers.length
    simp [succs, h1, coordSucc, hc]

/-- Pool environment in which every attempt fails with the no-address
message, modelling a fully exhausted subnet. -/
def cfgAllNoIP : PoolConfig where
  outcome := fun _ _ => .failed noIPMsg

/-- One-worker drain trace, state 1: the worker began its attempt. -/
def drain1 : PState := ⟨[.attempting 0], none, false, .atSelect⟩

/-- One-worker drain trace, state 2: the attempt failed exhaustion-class. -/
def drain2 : PState := ⟨[.sending noIPMsg], none, false, .atSelect⟩

/-- One-worker drain trace, state 3: the error is buffered in `errorChan`. -/
def drain3 : PState := ⟨[.cancelling], some noIPMsg, false, .atSelect⟩

/-- One-worker drain trace, state 4: the worker cancelled and returned. -/
def drain4 : PState := ⟨[.wdone], some noIPMsg, true, .atSelect⟩

/-- One-worker drain trace, state 5: the coordinator received the error. -/
def drain5 : PState := ⟨[.wdone], none, true, .wgWait (.exhausted noIPMsg)⟩

/-- One-worker drain trace, final state: `wg.Wait()` returned and the
program sits at the empty `select {}`. -/
def drain6 : PState := ⟨[.wdone], none, true, .blockedForever (.exhausted noIPMsg)⟩

/-- C2 counterexample: a complete one-worker run under the always-exhausted
allocator drains cleanly, but its final state — the trailing `select {}` of
`main`, reached after `wg.Wait()` and the completion message — has no
successor: `main` never returns, so the process never completes with exit
code 0 as the claim requires. -/
theorem pool_run_never_exits :
    poolStep cfgAllNoIP (initState 1) drain1 ∧ poolStep cfgAllNoIP drain1 drain2 ∧
    poolStep cfgAllNoIP drain2 drain3 ∧ poolStep cfgAllNoIP drain3 drain4 ∧
    poolStep cfgAllNoIP drain4 drain5 ∧ poolStep cfgAllNoIP drain5 drain6 ∧
    drain6.coord = .blockedForever (.exhausted noIPMsg) ∧
    succs cfgAllNoIP drain6 = [] := by decide

/-- C2 amended witness: the drain property applied to the end of the
concrete one-worker run. -/
theorem pool_drain_blocked_witness :
    (∀ w ∈ drain6.workers, w = WState.wdone) ∧ succs cfgAllNoIP drain6 = [] := by
  have h1 : poolStep cfgAllNoIP (initState 1) drain1 := by decide
  have h2 : poolStep cfgAllNoIP drain1 drain2 := by decide
  have h3 : poolStep cfgAllNoIP drain2 drain3 := by decide
  have h4 : poolStep cfgAllNoIP drain3 drain4 := by decide
  have h5 : poolStep cfgAllNoIP drain4 drain5 := by decide
  have h6 : poolStep cfgAllNoIP drain5 drain6 := by decide
  have hreach : poolReach cfgAllNoIP 1 drain6 :=
    Relation.ReflTransGen.head h1 (Relation.ReflTransGen.head h2
      (Relation.ReflTransGen.head h3 (Relation.ReflTransGen.head h4
        (Relation.ReflTransGen.head h5 (Relation.ReflTransGen.head h6
          Relation.ReflTransGen.refl)))))
  have h := pool_drain_blocked cfgAllNoIP 1 drain6 (.exhausted noIPMsg) hreach rfl
  exact ⟨h.1, h.2.2.2⟩

/-- Three-worker deadlock trace, state 1: worker 0 began its attempt. -/
def dead1 : PState := ⟨[.attempting 0, .loopTop 0, .loopTop 0], none, false, .atSelect⟩

/-- Three-worker deadlock trace, state 2: worker 1 began its attempt. -/
def dead2 : PState := ⟨[.attempting 0, .attempting 0, .loopTop 0], none, false, .atSelect⟩

/-- Three-worker deadlock trace, state 3: worker 2 began its attempt. -/
def dead3 : PState := ⟨[.attempting 0, .attempting 0, .attempting 0], none, false, .atSelect⟩

/-- Three-worker deadlock trace, state 4: worker 0 observed exhaustion. -/
def dead4 : PState := ⟨[.sending noIPMsg, .attempting 0, .attempting 0], none, false, .atSelect⟩

/-- Three-worker deadlock trace, state 5: worker 0 filled `errorChan`. -/
def dead5 : PState := ⟨[.cancelling, .attempting 0, .attempting 0], some noIPMsg, false, .atSelect⟩

/-- Three-worker deadlock trace, state 6: worker 0 cancelled and returned. -/
def dead6 : PState := ⟨[.wdone, .attempting 0, .attempting 0], some noIPMsg, true, .atSelect⟩

/-- Three-worker deadlock trace, state 7: the coordinator received worker
0's error — the only receive `main` ever performs on `errorChan`. -/
def dead7 : PState := ⟨[.wdone, .attempting 0, .attempting 0], none, true,
  .wgWait (.exhausted noIPMsg)⟩

/-- Three-worker deadlock trace, state 8: worker 1 observed exhaustion. -/
def dead8 : PState := ⟨[.wdone, .sending noIPMsg, .attempting 0], none, true,
  .wgWait (.exhausted noIPMsg)⟩

/-- Three-worker deadlock trace, state 9: worker 1 refilled `errorChan`. -/
def dead9 : PState := ⟨[.wdone, .cancelling, .attempting 0], some noIPMsg, true,
  .wgWait (.exhausted noIPMsg)⟩

/-- Three-worker deadlock trace, state 10: worker 1 returned. -/
def dead10 : PState := ⟨[.wdone, .wdone, .attempting 0], some noIPMsg, true,
  .wgWait (.exhausted noIPMsg)⟩

/-- Three-worker deadlock trace, final state: worker 2 also observed
exhaustion and must send, but `errorChan` (capacity 1) is full and is never
received from again. -/
def dead11 : PState := ⟨[.wdone, .wdone, .sending noIPMsg], some noIPMsg, true,
  .wgWait (.exhausted noIPMsg)⟩

/-- C1: with three workers concurrently observing an exhaustion-class
outcome, the run can deadlock — the execution below is a valid interleaving
that ends in a state with no enabled transition at all, in which worker 2 is
blocked forever on its `errorChan <- err` send (the capacity-1 channel is
full and the coordinator's single receive already happened) and `wg.Wait()`
can never return because worker 2 never exits; the run does not shut down
cleanly. -/
theorem exhaustion_signal_deadlock :
    poolStep cfgAllNoIP (initState 3) dead1 ∧ poolStep cfgAllNoIP dead1 dead2 ∧
    poolStep cfgAllNoIP dead2 dead3 ∧ poolStep cfgAllNoIP dead3 dead4 ∧
    poolStep cfgAllNoIP dead4 dead5 ∧ poolStep cfgAllNoIP dead5 dead6 ∧
    poolStep cfgAllNoIP dead6 dead7 ∧ poolStep cfgAllNoIP dead7 dead8 ∧
    poolStep cfgAllNoIP dead8 dead9 ∧ poolStep cfgAllNoIP dead9 dead10 ∧
    poolStep cfgAllNoIP dead10 dead11 ∧
    succs cfgAllNoIP dead11 = [] ∧
    allDone dead11.workers = false ∧
    dead11.coord = .wgWait (.exhausted noIPMsg) := by decide

/-- Image lists that reach the spawn loop are non-empty. -/
theorem preSpawn_ok_ne_nil {inp : SetupInput} {names : List String} {w : Int}
    (h : preSpawn inp = .ok (names, w)) : names ≠ [] := by
  unfold preSpawn at h
  split at h
  · exact absurd h (by simp)
  · rename_i dockerfileList hlist
    split at h
    · exact absurd h (by simp)
    · split at h
      · exact absurd h (by simp)
      · split at h
        · exact absurd h (by simp)
        · rename_i ns hbuild
          injection h with h'
          obtain ⟨hn, -⟩ := Prod.mk.injEq .. ▸ h'
          subst hn
          intro hnil
          apply computeDockerfileList_ok_ne_nil hlist
          have hz : dockerfileList.length = 0 := by
            rw [← buildAll_ok_length hbuild, hnil]
            rfl
          exact List.length_eq_zero.mp hz

/-- Pre-spawn input with the `-workers` flag set to zero and one valid
explicitly flagged dockerfile directory. -/
def inpZeroWorkers : SetupInput where
  dockerfilesFlag := "ipocalypse_basic_image"
  workersFlag := 0
  entries := []
  networkSetupOk := true
  dockerClientOk := true
  buildOk := fun _ => true

/-- C5 counterexample: `main` never validates the worker count — with
`-workers=0` (less than 1) and a valid image list, the pre-spawn phase
succeeds instead of failing fast, and the resulting zero-worker pool state
has no transition at all: the coordinator's `select` blocks forever rather
than aborting with a configuration error. -/
theorem zero_workers_not_rejected :
    preSpawn inpZeroWorkers = .ok (["ipocalypse_basic_image:latest"], 0) ∧
    (0 : Int) < 1 ∧
    succs cfgAllLaunch (initState 0) = [] := by
  refine ⟨rfl, by decide, rfl⟩

/-- C5 amended: the empty-image-list half of the precondition is enforced —
every pre-spawn phase that succeeds carries a non-empty image list, and
auto-discovery that finds no `ipocalypse*` directory aborts with exit code 1
before any worker is spawned — but the `workerCount >= 1` half is not
checked anywhere: no configuration error exists for it (a zero-worker run
instead blocks forever, as the counterexample shows). -/
theorem config_validation_amended :
    (∀ (inp : SetupInput) (names : List String) (w : Int),
      preSpawn inp = .ok (names, w) → names ≠ []) ∧
    (∀ inp : SetupInput, inp.dockerfilesFlag = "" →
      inp.entries.filter (fun e => e.2 && goHasPrefix e.1 "ipocalypse") = [] →
      preSpawn inp = .error 1) := by
  constructor
  · intro inp names w h
    exact preSpawn_ok_ne_nil h
  · intro inp hflag hempty
    simp [preSpawn, computeDockerfileList, getIpocalypseDirs, hflag, hempty]

/-- Pre-spawn input relying on auto-discovery in a directory with no
`ipocalypse*` entry. -/
def inpNoDirs : SetupInput where
  dockerfilesFlag := ""
  workersFlag := 5
  entries := [("notes", true), ("main.go", false)]
  networkSetupOk := true
  dockerClientOk := true
  buildOk := fun _ => true

/-- C5 amended witness: auto-discovery over a directory without any
`ipocalypse*` subdirectory aborts with exit code 1. -/
theorem config_validation_amended_witness : preSpawn inpNoDirs = .error 1 :=
  config_validation_amended.2 inpNoDirs rfl (by decide)

/-- Stubbed Docker client for one `launchContainer` call: the container ID
or error from `ContainerCreate`, the error from `ContainerStart` if any, and
the `ContainerInspect` result — an error, or the endpoint settings for the
`ipocalypse_net` key (`none` when the key is absent, otherwise the
`IPAddress` string, possibly empty). -/
structure DockerStub where
  createResult : Except String String
  startErr : Option String
  inspectResult : Except String (Option String)

/-- Docker API calls `launchContainer` performs, in order. -/
inductive DockerAction where
| create : DockerAction
| start : String → DockerAction
| inspect : String → DockerAction
| remove : String → DockerAction
deriving DecidableEq

/-- Embedding of Go `launchContainer`: returns the container ID, the error
if any, and the chronological list of Docker calls made before returning;
when inspection finds no `ipocalypse_net` endpoint or an empty `IPAddress`,
the container is force-removed and the no-address error is returned. -/
def launchContainer (stub : DockerStub) : (String × Option String) × List DockerAction :=
  match stub.createResult with
  | .error e => (("", some e), [.create])
  | .ok cid =>
    match stub.startErr with
    | some e => ((cid, some e), [.create, .start cid])
    | none =>
      match stub.inspectResult with
      | .error e => ((cid, some e), [.create, .start cid, .inspect cid])
      | .ok ep =>
        match ep with
        | none => ((cid, some noIPMsg), [.create, .start cid, .inspect cid, .remove cid])
        | some ipAddr =>
          if ipAddr = "" then
            ((cid, some noIPMsg), [.create, .start cid, .inspect cid, .remove cid])
          else ((cid, none), [.create, .start cid, .inspect cid])

/-- C7: every attempt that creates and starts its container but fails to
confirm an assigned address (inspection succeeds and finds the network key
absent or the `IPAddress` empty) force-removes the container — the remove is
the last call in the trace, before the attempt returns — and the error it
then reports is the exhaustion-class one (`isNoIPError` true). -/
theorem failed_attempt_removes_container :
    ∀ (stub : DockerStub) (cid : String) (ep : Option String),
      stub.createResult = .ok cid → stub.startErr = none →
      stub.inspectResult = .ok ep → (ep = none ∨ ep = some "") →
      launchContainer stub =
        ((cid, some noIPMsg), [.create, .start cid, .inspect cid, .remove cid]) ∧
      isNoIPError (launchContainer stub).1.2 = true := by
  intro stub cid ep hc hs hi hep
  have hl : launchContainer stub =
      ((cid, some noIPMsg), [.create, .start cid, .inspect cid, .remove cid]) := by
    unfold launchContainer
    rw [hc, hs, hi]
    rcases hep with rfl | rfl
    · rfl
    · rfl
  refine ⟨hl, ?_⟩
  rw [hl]
  show isNoIPError (some noIPMsg) = true
  decide

/-- Stub whose container starts but reports an empty `IPAddress`. -/
def stubNoAddress : DockerStub where
  createResult := .ok "c0ffee"
  startErr := none
  inspectResult := .ok (some "")

/-- C7 witness: the removal guarantee applied to a concrete stub whose
container receives no address. -/
theorem failed_attempt_removes_container_witness :
    launchContainer stubNoAddress =
      (("c0ffee", some noIPMsg),
        [.create, .start "c0ffee", .inspect "c0ffee", .remove "c0ffee"]) ∧
    isNoIPError (launchContainer stubNoAddress).1.2 = true :=
  failed_attempt_removes_container stubNoAddress "c0ffee" (some "") rfl rfl rfl
    (Or.inr rfl)
